import Mathlib

/-!
Shallow embedding of the raw2database ingestion pipeline.

The embedding covers the two handler variants of the repository:
`src/database/database_handler.py` (primary; config loaded from a file,
retry-bounded `connect`, `files2tables` without preprocessing) and
`src/database/handler.py` (variant; adds `_preprocess_dataframes`).

Pandas dataframes are modelled as a schema (column name and dtype) plus
row-major cells; the dtypes that the pipeline inspects are `float64`,
`int64`, `object` and `category`, exactly the ones named in
`_preprocess_dataframes`.  External effects (the sqlalchemy engine, the
filesystem, the readers `pd.read_csv` / `pd.read_json`) are modelled as
explicit data: a raw file carries the outcome each reader would produce
(`none` = the reader raises), and the engine carries the outcomes of its
probe and disposal.
-/

namespace Raw2DB

/-! ## Data model: dataframes -/

/-- Column dtypes distinguished by `_preprocess_dataframes`
(`handler.py` lines 174-194). -/
inductive Dtype where
  | float64
  | int64
  | object
  | category
deriving DecidableEq, Repr

/-- A scalar value held in a dataframe cell: a float (modelled as a
rational), an integer, or a string. -/
inductive Val where
  | r (q : Rat)
  | i (n : Int)
  | s (str : String)
deriving DecidableEq, Repr

/-- A cell is a value or a missing entry (`NaN` / null). -/
abbrev Cell := Option Val

/-- A pandas dataframe: named, dtyped columns and row-major cells.
Each row is positionally aligned with the schema. -/
structure DF where
  schema : List (String × Dtype)
  rows : List (List Cell)
deriving DecidableEq, Repr

/-- Well-formedness of one cell for a dtype: `float64` holds floats or
`NaN`; `int64` holds integers (pandas `int64` cannot hold `NaN`);
`object` and `category` hold strings or `NaN` (parsed CSV/JSON string
columns hold strings). -/
def cellOk : Dtype → Cell → Bool
  | Dtype.float64, none => true
  | Dtype.float64, some (Val.r _) => true
  | Dtype.int64, some (Val.i _) => true
  | Dtype.object, none => true
  | Dtype.object, some (Val.s _) => true
  | Dtype.category, none => true
  | Dtype.category, some (Val.s _) => true
  | _, _ => false

/-- A row is well-formed for a dtype list when lengths agree and each
cell is well-formed for its column's dtype. -/
def rowOk : List Dtype → List Cell → Bool
  | [], [] => true
  | dt :: dts, c :: cs => cellOk dt c && rowOk dts cs
  | _, _ => false

/-- Dtypes of a schema, in column order. -/
def dtypes (schema : List (String × Dtype)) : List Dtype :=
  schema.map Prod.snd

/-- Well-formed dataframe: every row aligned and cell-typed. -/
def WF (df : DF) : Bool :=
  df.rows.all (fun r => rowOk (dtypes df.schema) r)

/-- No missing values anywhere in the dataframe. -/
def noNulls (df : DF) : Bool :=
  df.rows.all (fun r => r.all Option.isSome)

/-! ## Normalizer (`PostgresHandler._preprocess_dataframes`, handler.py 161-198) -/

/-- Non-null values observed in column `k`, in row order. -/
def colValues (rows : List (List Cell)) (k : Nat) : List Val :=
  rows.filterMap (fun r =>
    match r.get? k with
    | some (some v) => some v
    | _ => none)

/-- Number of distinct non-null values in column `k`
(pandas `df[col].nunique()`, which drops `NaN`). -/
def nunique (rows : List (List Cell)) (k : Nat) : Nat :=
  (colValues rows k).dedup.length

/-- Demote object columns with fewer than 10 distinct values to
`category` (handler.py lines 178-180), walking the schema from column
index `k`. -/
def demoteAux (rows : List (List Cell)) : Nat → List (String × Dtype) → List (String × Dtype)
  | _, [] => []
  | k, (nm, dt) :: rest =>
      (if dt = Dtype.object ∧ nunique rows k < 10 then (nm, Dtype.category) else (nm, dt))
        :: demoteAux rows (k + 1) rest

/-- Low-cardinality categorical demotion applied to a whole schema. -/
def demoteSchema (rows : List (List Cell)) (schema : List (String × Dtype)) :
    List (String × Dtype) :=
  demoteAux rows 0 schema

/-- Row deduplication keeping the first occurrence
(pandas `df.drop_duplicates()`, which also treats `NaN` as equal to
`NaN`); `seen` accumulates the rows already kept. -/
def dropDupAux (seen : List (List Cell)) : List (List Cell) → List (List Cell)
  | [] => []
  | r :: rs => if r ∈ seen then dropDupAux seen rs else r :: dropDupAux (r :: seen) rs

/-- Duplicate-row elimination (handler.py line 183). -/
def dropDup (rows : List (List Cell)) : List (List Cell) :=
  dropDupAux [] rows

/-- Numeric missing-value fill: `df[numerical_columns].fillna(0)` on the
`float64` / `int64` columns (handler.py lines 186-187). -/
def fillNumCell : Dtype → Cell → Cell
  | Dtype.float64, none => some (Val.r 0)
  | Dtype.int64, none => some (Val.i 0)
  | _, c => c

/-- String rendering of a value, as Python `str` applied to the cell. -/
def valToString : Val → String
  | Val.r q => toString q
  | Val.i n => toString n
  | Val.s str => str

/-- Object-column missing-value fill:
`df[categorical_columns].fillna("No Answer")` where
`categorical_columns = df.select_dtypes(include=["object"]).columns`
(handler.py lines 190-191).  Columns demoted to `category` dtype are not
selected and are left untouched. -/
def fillObjCell : Dtype → Cell → Cell
  | Dtype.object, none => some (Val.s "No Answer")
  | _, c => c

/-- Final string coercion `df[categorical_columns].astype(str)` applied
to the object columns (handler.py line 194); pandas renders a residual
`NaN` as the string "nan". -/
def astypeStrCell : Dtype → Cell → Cell
  | Dtype.object, some v => some (Val.s (valToString v))
  | Dtype.object, none => some (Val.s "nan")
  | _, c => c

/-- Apply a per-cell transformation positionally, pairing each cell with
its column's dtype. -/
def mapRow (f : Dtype → Cell → Cell) : List Dtype → List Cell → List Cell
  | dt :: dts, c :: cs => f dt c :: mapRow f dts cs
  | _, _ => []

/-- The normalization pass applied to one dataframe, following
`_preprocess_dataframes` step by step: `df.infer_objects()` (a no-op on
frames whose object columns hold the strings produced by the CSV/JSON
readers — pandas soft conversion does not parse strings, so it is
modelled as the identity), low-cardinality demotion, duplicate-row
elimination, numeric fill with `0`, object fill with "No Answer", and
the final `astype(str)` on the object columns. -/
def normalizeDF (df : DF) : DF :=
  let schema2 := demoteSchema df.rows df.schema
  let dts := dtypes schema2
  let rows3 := dropDup df.rows
  let rows4 := rows3.map (fun r => mapRow fillNumCell dts r)
  let rows5 := rows4.map (fun r => mapRow fillObjCell dts r)
  let rows6 := rows5.map (fun r => mapRow astypeStrCell dts r)
  { schema := schema2, rows := rows6 }

/-- The intermediate frame right after demotion and deduplication
(the state of `df` after handler.py line 183, before the fills). -/
def normMid (df : DF) : DF :=
  { schema := demoteSchema df.rows df.schema, rows := dropDup df.rows }

/-! ## Connection lifecycle (`database_handler.py`) -/

/-- Error taxonomy of the connection layer: the `ValueError` raised on
incomplete configuration (the spec's `ConfigurationError`) and the
`ConnectionError` raised when retries are exhausted. -/
inductive DBError where
  | configurationError
  | connectionError
deriving DecidableEq, Repr

/-- The sqlalchemy Engine, an opaque external handle; the model keeps
only whether it has been disposed. -/
structure Engine where
  disposed : Bool
deriving DecidableEq, Repr

/-- Configuration mapping as loaded from the JSON file. -/
abbrev ConfigMap := List (String × String)

/-- Dict lookup, `configuration_data.get(key)`. -/
def cget : ConfigMap → String → Option String
  | [], _ => none
  | (k, v) :: rest, j => if k = j then some v else cget rest j

/-- Python truthiness of a `.get` result: `None` and the empty string
are falsy, any other string is truthy. -/
def truthy : Option String → Bool
  | none => false
  | some s => decide (s ≠ "")

/-- The validation guard of `connect` (database_handler.py line 108):
`all([db_user, db_password, db_host, db_port, db_name])`. -/
def configComplete (cfg : ConfigMap) : Bool :=
  truthy (cget cfg "DB_USER") && truthy (cget cfg "DB_PASSWORD") &&
    truthy (cget cfg "DB_HOST") && truthy (cget cfg "DB_PORT") &&
    truthy (cget cfg "DB_NAME")

/-- The `setup` of the primary handler (database_handler.py lines
59-61): it re-checks the logger and stores the configuration mapping
read from the file.  File access is abstracted away (the mapping is the
already-parsed JSON); no field of the mapping is validated here. -/
def setup (cfg : ConfigMap) : Except DBError ConfigMap :=
  Except.ok cfg

/-- The retry loop of `_try_to_connect_n_times` (database_handler.py
lines 84-93).  `succ k` tells whether attempt number `k` (1-based)
succeeds; `failures` is the current value of `retries` and the remaining
fuel is `max_retries - retries`.  Returns the final `retries` counter
and whether an engine was obtained. -/
def connLoop (succ : Nat → Bool) : Nat → Nat → Nat × Bool
  | failures, 0 => (failures, false)
  | failures, remaining + 1 =>
      if succ (failures + 1) then (failures, true)
      else connLoop succ (failures + 1) remaining

/-- `_try_to_connect_n_times` (database_handler.py lines 83-97): run the
retry loop, then raise `ConnectionError` when `retries == max_retries`.
Also returns the number of connection attempts actually made. -/
def tryToConnectNTimes (succ : Nat → Bool) (maxRetries : Nat) :
    Except Unit Engine × Nat :=
  let res := connLoop succ 0 maxRetries
  let attempts := if res.2 then res.1 + 1 else res.1
  if res.1 = maxRetries then (Except.error (), attempts)
  else (Except.ok { disposed := false }, attempts)

/-- `connect` (database_handler.py lines 99-111): read the five fields,
raise `ValueError` when any is missing or falsy — before any connection
attempt — otherwise run the bounded retry and store the engine.  The
second component counts the connection attempts made. -/
def connect (cfg : ConfigMap) (succ : Nat → Bool) (maxRetries : Nat) :
    Except DBError Engine × Nat :=
  if configComplete cfg then
    match tryToConnectNTimes succ maxRetries with
    | (Except.ok e, a) => (Except.ok e, a)
    | (Except.error _, a) => (Except.error DBError.connectionError, a)
  else (Except.error DBError.configurationError, 0)

/-- Handler state relevant to the liveness probe and teardown: the
stored engine (if any) and whether the database is reachable. -/
structure PgState where
  engine : Option Engine
  dbUp : Bool
deriving DecidableEq, Repr

/-- `is_the_connection_up` (database_handler.py lines 113-120):
`self.engine.connect()` inside try/except.  With no engine the attribute
access raises and is caught (returns false); with an engine the probe
outcome is modelled from the spec: a live, undisposed engine with the
database reachable probes up, a disposed engine or an unreachable
database makes the probe raise, which is caught (returns false).  The
function is total: it never raises. -/
def isTheConnectionUp (st : PgState) : Bool :=
  match st.engine with
  | none => false
  | some e => !e.disposed && st.dbUp

/-- Observable outcome of one `close_connection` call. -/
inductive CloseOutcome where
  | disposedNow
  | alreadyClosed
  | raisedError
deriving DecidableEq, Repr

/-- `close_connection` (database_handler.py lines 122-131): dispose the
engine iff the liveness check reports it up, log "already closed"
otherwise; a failure of `dispose` (the `disposeRaises` oracle) is
wrapped and re-raised as `ConnectionError`. -/
def closeConnection (disposeRaises : Bool) (st : PgState) : CloseOutcome × PgState :=
  if isTheConnectionUp st then
    if disposeRaises then (CloseOutcome.raisedError, st)
    else (CloseOutcome.disposedNow,
      { st with engine := st.engine.map (fun e => { e with disposed := true }) })
  else (CloseOutcome.alreadyClosed, st)

/-! ## Ingestion (`_files2dataframes` / `files2tables`) -/

/-- A file in the raw directory: its name and the outcome each pandas
reader would produce on it (`none` = the reader raises on this file). -/
structure RawFile where
  name : String
  parseCsv : Option DF
  parseJson : Option DF
deriving DecidableEq, Repr

/-- Table-name derivation: Python `file_name.split(".")[0]`, the file
name truncated at the first dot. -/
def truncAtDot (s : String) : String :=
  String.mk (s.data.takeWhile (fun c => c != '.'))

/-- Python `str.endswith`: exact, case-sensitive suffix match. -/
def pyEndsWith (s suffix : String) : Bool :=
  suffix.data.reverse.isPrefixOf s.data.reverse

/-- Python dict assignment `d[k] = v`: replace in place when the key is
present (keeping its position), append otherwise. -/
def pyInsert (m : List (String × DF)) (k : String) (v : DF) : List (String × DF) :=
  match m with
  | [] => [(k, v)]
  | (k0, v0) :: rest => if k0 = k then (k, v) :: rest else (k0, v0) :: pyInsert rest k v

/-- Dict lookup on the table-name mapping. -/
def lookupDF : List (String × DF) → String → Option DF
  | [], _ => none
  | (k, v) :: rest, j => if k = j then some v else lookupDF rest j

/-- The per-file loop of `_files2dataframes` (database_handler.py lines
140-154): for each listed file, read it with the reader selected by the
run's extension argument (`.csv` → `read_csv`, `.json` → `read_json`,
anything else → log and `continue`), and store the dataframe under the
file name truncated at the first dot.  A reader exception propagates out
of the loop (`none`): the surrounding try/except then discards every
dataframe read so far. -/
def f2dLoop (ext : String) : List RawFile → List (String × DF) → Option (List (String × DF))
  | [], acc => some acc
  | f :: fs, acc =>
      if ext = ".csv" then
        match f.parseCsv with
        | some df => f2dLoop ext fs (pyInsert acc (truncAtDot f.name) df)
        | none => none
      else if ext = ".json" then
        match f.parseJson with
        | some df => f2dLoop ext fs (pyInsert acc (truncAtDot f.name) df)
        | none => none
      else f2dLoop ext fs acc

/-- `_files2dataframes` (database_handler.py lines 133-168): list the
directory entries whose name ends with the extension, run the per-file
loop, and on any exception fall back to the empty mapping (the `except`
branch sets `files2dataframes = {}`). -/
def files2dataframes (ext : String) (dir : List RawFile) : List (String × DF) :=
  match f2dLoop ext (dir.filter (fun f => pyEndsWith f.name ext)) [] with
  | some m => m
  | none => []

/-- `files2tables` (database_handler.py lines 170-180): raise
`ValueError` (the spec's `NoDataError`) when the mapping is empty,
otherwise write each dataframe as a table named by its key, in mapping
order.  The returned list is the sequence of (table name, dataframe)
writes performed via `to_sql`. -/
def files2tables (ext : String) (dir : List RawFile) :
    Except Unit (List (String × DF)) :=
  let m := files2dataframes ext dir
  if m.length = 0 then Except.error () else Except.ok m

/-- `files2tables` of the variant handler (handler.py lines 202-214):
identical, except every dataframe first goes through
`_preprocess_dataframes` (which preserves keys and their order). -/
def files2tablesH (ext : String) (dir : List RawFile) :
    Except Unit (List (String × DF)) :=
  let m := files2dataframes ext dir
  let clean := m.map (fun kv => (kv.1, normalizeDF kv.2))
  if clean.length = 0 then Except.error () else Except.ok clean

/-- The reader that the run's extension argument selects, used to state
batch-level lemmas uniformly over the `.csv` and `.json` branches. -/
def readerFor (ext : String) (f : RawFile) : Option DF :=
  if ext = ".csv" then f.parseCsv else f.parseJson

/-- The per-file loop expressed through `readerFor`; equal to `f2dLoop`
whenever the extension is `.csv` or `.json`. -/
def f2dLoopR (ext : String) : List RawFile → List (String × DF) → Option (List (String × DF))
  | [], acc => some acc
  | f :: fs, acc =>
      match readerFor ext f with
      | some df => f2dLoopR ext fs (pyInsert acc (truncAtDot f.name) df)
      | none => none

/-- Keys of the table-name mapping, in mapping order. -/
def keysOf (m : List (String × DF)) : List String :=
  m.map Prod.fst

/-! ## Concrete inputs used by the claim theorems -/

/-- A record set with one string column holding one value and one null:
its cardinality (1 distinct value) is below the demotion threshold. -/
def exC3 : DF :=
  { schema := [("g", Dtype.object)], rows := [[some (Val.s "a")], [none]] }

/-- Concrete input for the C3 witness: a float column and a wide string
column (10 distinct values, hence not demoted), with a null in each. -/
def dfW3 : DF :=
  { schema := [("x", Dtype.float64), ("g", Dtype.object)]
    rows :=
      [[none, some (Val.s "v0")], [some (Val.r 1), none],
       [some (Val.r 2), some (Val.s "v1")], [some (Val.r 3), some (Val.s "v2")],
       [some (Val.r 4), some (Val.s "v3")], [some (Val.r 5), some (Val.s "v4")],
       [some (Val.r 6), some (Val.s "v5")], [some (Val.r 7), some (Val.s "v6")],
       [some (Val.r 8), some (Val.s "v7")], [some (Val.r 9), some (Val.s "v8")],
       [some (Val.r 10), some (Val.s "v9")]] }

/-- A record set with one float column holding a null and a 0: after one
normalization pass the null becomes 0, creating a duplicate row that
only a second pass removes. -/
def exC4 : DF :=
  { schema := [("x", Dtype.float64)], rows := [[none], [some (Val.r 0)]] }

/-- Concrete input for the C4 witness: an integer column with two
distinct rows and no nulls. -/
def dfW4 : DF :=
  { schema := [("n", Dtype.int64)], rows := [[some (Val.i 1)], [some (Val.i 2)]] }

/-- C6 counterexample: a configuration missing `DB_USER`.  The claim
says `setup` validates completeness and fails with `ConfigurationError`
on it; in the cited handler, `setup` only loads the file and succeeds —
no field is validated before `connect`. -/
def cfgMissingUser : ConfigMap :=
  [("DB_PASSWORD", "p"), ("DB_HOST", "h"), ("DB_PORT", "5432"), ("DB_NAME", "n")]

/-- Directory for the C5 witness: one file that does not match the
`.csv` extension filter. -/
def dirC5 : List RawFile :=
  [{ name := "notes.txt", parseCsv := none, parseJson := none }]

/-- A parseable one-column dataframe, the content of `a.csv`. -/
def dfA : DF :=
  { schema := [("c", Dtype.int64)], rows := [[some (Val.i 1)]] }

/-- The parseable file of the C1 scenario. -/
def fileA : RawFile := { name := "a.csv", parseCsv := some dfA, parseJson := none }

/-- The malformed file of the C1 scenario: `read_csv` raises on it. -/
def fileB : RawFile := { name := "b.csv", parseCsv := none, parseJson := none }

/-- The C1 directory: one valid `a.csv` and one malformed `b.csv`. -/
def dirC1 : List RawFile := [fileA, fileB]

/-- Directory for the C9 witness: a single file whose name contains two
dots. -/
def dirC9 : List RawFile :=
  [{ name := "a.b.csv", parseCsv := some dfA, parseJson := none }]

/-- A second parseable dataframe, the content of `a.b.csv`. -/
def dfB : DF :=
  { schema := [("d", Dtype.int64)], rows := [[some (Val.i 7)]] }

/-- The colliding file: `a.b.csv` truncates to the same table name `a`
as `a.csv`. -/
def fileAB : RawFile := { name := "a.b.csv", parseCsv := some dfB, parseJson := none }

/-- Directory for the C10 witness: `a.csv` then `a.b.csv`, whose names
agree up to the first dot. -/
def dirColl : List RawFile := [fileA, fileAB]

/-! ## Lemmas on duplicate-row elimination -/

theorem mem_of_mem_dropDupAux {x : List Cell} :
    ∀ (seen l : List (List Cell)), x ∈ dropDupAux seen l → x ∈ l := by
  intro seen l
  induction l generalizing seen with
  | nil => intro h; simp [dropDupAux] at h
  | cons r rs ih =>
    intro h
    simp only [dropDupAux] at h
    by_cases hr : r ∈ seen
    · simp [hr] at h
      exact List.mem_cons_of_mem _ (ih _ h)
    · simp [hr] at h
      rcases h with h | h
      · exact h ▸ List.mem_cons_self _ _
      · exact List.mem_cons_of_mem _ (ih _ h)

theorem mem_dropDupAux_of_mem {x : List Cell} :
    ∀ (seen l : List (List Cell)), x ∈ l → x ∉ seen → x ∈ dropDupAux seen l := by
  intro seen l
  induction l generalizing seen with
  | nil => intro h; simp at h
  | cons r rs ih =>
    intro hmem hseen
    simp only [dropDupAux]
    by_cases hr : r ∈ seen
    · simp only [hr, if_true]
      rcases List.mem_cons.mp hmem with h | h
      · exact absurd (h ▸ hr) hseen
      · exact ih _ h hseen
    · simp only [hr, if_false]
      by_cases hxr : x = r
      · exact hxr ▸ List.mem_cons_self _ _
      · rcases List.mem_cons.mp hmem with h | h
        · exact absurd h hxr
        · refine List.mem_cons_of_mem _ (ih _ h ?_)
          intro hx
          rcases List.mem_cons.mp hx with hx | hx
          · exact hxr hx
          · exact hseen hx

theorem mem_dropDup {x : List Cell} {l : List (List Cell)} :
    x ∈ dropDup l ↔ x ∈ l := by
  constructor
  · exact mem_of_mem_dropDupAux [] l
  · intro h
    exact mem_dropDupAux_of_mem [] l h (by simp)

theorem not_mem_seen_of_mem_dropDupAux {x : List Cell} :
    ∀ (seen l : List (List Cell)), x ∈ dropDupAux seen l → x ∉ seen := by
  intro seen l
  induction l generalizing seen with
  | nil => intro h; simp [dropDupAux] at h
  | cons r rs ih =>
    intro h
    simp only [dropDupAux] at h
    by_cases hr : r ∈ seen
    · simp only [hr, if_true] at h
      exact ih _ h
    · simp only [hr, if_false] at h
      rcases List.mem_cons.mp h with h | h
      · exact h ▸ hr
      · intro hx
        exact ih _ h (List.mem_cons_of_mem _ hx)

theorem nodup_dropDupAux :
    ∀ (seen l : List (List Cell)), (dropDupAux seen l).Nodup := by
  intro seen l
  induction l generalizing seen with
  | nil => simp [dropDupAux]
  | cons r rs ih =>
    simp only [dropDupAux]
    by_cases hr : r ∈ seen
    · simp only [hr, if_true]
      exact ih _
    · simp only [hr, if_false]
      refine List.nodup_cons.mpr ⟨?_, ih _⟩
      intro hmem
      exact not_mem_seen_of_mem_dropDupAux _ _ hmem (List.mem_cons_self _ _)

theorem dropDupAux_eq_self :
    ∀ (l seen : List (List Cell)), l.Nodup → (∀ x ∈ l, x ∉ seen) →
      dropDupAux seen l = l := by
  intro l
  induction l with
  | nil => intro seen _ _; simp [dropDupAux]
  | cons r rs ih =>
    intro seen hnd hdisj
    have hr : r ∉ seen := hdisj r (List.mem_cons_self _ _)
    simp only [dropDupAux, hr, if_false]
    congr 1
    apply ih _ (List.nodup_cons.mp hnd).2
    intro x hx hmem
    rcases List.mem_cons.mp hmem with h | h
    · exact (List.nodup_cons.mp hnd).1 (h ▸ hx)
    · exact hdisj x (List.mem_cons_of_mem _ hx) h

theorem dropDup_idem (l : List (List Cell)) : dropDup (dropDup l) = dropDup l :=
  dropDupAux_eq_self _ _ (nodup_dropDupAux [] l) (by simp)

/-! ## Lemmas on the per-cell fills -/

theorem fill_cell_id {dt : Dtype} {c : Cell} (hok : cellOk dt c = true)
    (hs : c.isSome = true) :
    astypeStrCell dt (fillObjCell dt (fillNumCell dt c)) = c := by
  rcases c with _ | v
  · simp at hs
  · cases dt <;> cases v <;>
      simp_all [cellOk, fillNumCell, fillObjCell, astypeStrCell, valToString]

theorem mapRow_fills_id :
    ∀ (dts : List Dtype) (row : List Cell), rowOk dts row = true →
      row.all Option.isSome = true →
      mapRow astypeStrCell dts (mapRow fillObjCell dts (mapRow fillNumCell dts row)) = row := by
  intro dts
  induction dts with
  | nil =>
    intro row hok _
    cases row with
    | nil => rfl
    | cons c cs => simp [rowOk] at hok
  | cons dt dts ih =>
    intro row hok hsome
    cases row with
    | nil => simp [rowOk] at hok
    | cons c cs =>
      simp only [rowOk, Bool.and_eq_true] at hok
      simp only [List.all_cons, Bool.and_eq_true] at hsome
      simp only [mapRow]
      rw [fill_cell_id hok.1 hsome.1, ih cs hok.2 hsome.2]

theorem mapRow_get? {f : Dtype → Cell → Cell} :
    ∀ (dts : List Dtype) (row : List Cell) (k : Nat) (dt : Dtype) (c : Cell),
      dts.get? k = some dt → row.get? k = some c →
      (mapRow f dts row).get? k = some (f dt c) := by
  intro dts
  induction dts with
  | nil => intro row k dt c h; simp at h
  | cons d ds ih =>
    intro row k dt c hdt hc
    cases row with
    | nil => simp at hc
    | cons c0 cs =>
      cases k with
      | zero =>
        simp only [List.get?] at hdt hc
        cases hdt; cases hc
        rfl
      | succ k =>
        simp only [List.get?] at hdt hc
        simpa [mapRow] using ih cs k dt c hdt hc

/-! ## Lemmas on demotion and cardinality -/

theorem cellOk_category_eq_object (c : Cell) :
    cellOk Dtype.category c = cellOk Dtype.object c := by
  rcases c with _ | v
  · rfl
  · cases v <;> rfl

theorem rowOk_demoteAux {rows : List (List Cell)} :
    ∀ (schema : List (String × Dtype)) (k : Nat) (row : List Cell),
      rowOk (dtypes schema) row = true →
      rowOk (dtypes (demoteAux rows k schema)) row = true := by
  intro schema
  induction schema with
  | nil => intro k row h; exact h
  | cons e rest ih =>
    intro k row h
    obtain ⟨nm, dt⟩ := e
    cases row with
    | nil => simp [dtypes, rowOk] at h
    | cons c cs =>
      simp only [dtypes, List.map_cons, rowOk, Bool.and_eq_true] at h
      simp only [demoteAux]
      by_cases hcond : dt = Dtype.object ∧ nunique rows k < 10
      · rw [if_pos hcond]
        simp only [dtypes, List.map_cons, rowOk, Bool.and_eq_true]
        refine ⟨?_, ih (k + 1) cs h.2⟩
        rw [cellOk_category_eq_object, ← hcond.1]
        exact h.1
      · rw [if_neg hcond]
        simp only [dtypes, List.map_cons, rowOk, Bool.and_eq_true]
        exact ⟨h.1, ih (k + 1) cs h.2⟩

theorem demoteAux_cons (rows : List (List Cell)) (k : Nat) (nm : String) (dt : Dtype)
    (rest : List (String × Dtype)) :
    demoteAux rows k ((nm, dt) :: rest) =
      (if dt = Dtype.object ∧ nunique rows k < 10 then (nm, Dtype.category) else (nm, dt))
        :: demoteAux rows (k + 1) rest := rfl

theorem demoteAux_stable {rows1 rows2 : List (List Cell)}
    (hnu : ∀ j, nunique rows2 j = nunique rows1 j) :
    ∀ (schema : List (String × Dtype)) (k : Nat),
      demoteAux rows2 k (demoteAux rows1 k schema) = demoteAux rows1 k schema := by
  intro schema
  induction schema with
  | nil => intro k; rfl
  | cons e rest ih =>
    intro k
    obtain ⟨nm, dt⟩ := e
    rw [demoteAux_cons]
    by_cases hcond : dt = Dtype.object ∧ nunique rows1 k < 10
    · rw [if_pos hcond, demoteAux_cons,
        if_neg (by rintro ⟨h2, -⟩; exact absurd h2 (by decide)), ih (k + 1)]
    · rw [if_neg hcond, demoteAux_cons,
        if_neg (fun hc => hcond ⟨hc.1, (hnu k) ▸ hc.2⟩), ih (k + 1)]

theorem colValues_mem {rows : List (List Cell)} {k : Nat} {v : Val} :
    v ∈ colValues rows k ↔ ∃ r ∈ rows, r.get? k = some (some v) := by
  simp only [colValues, List.mem_filterMap]
  constructor
  · rintro ⟨r, hr, hv⟩
    refine ⟨r, hr, ?_⟩
    rcases hg : r.get? k with _ | c
    · rw [hg] at hv; simp at hv
    · rcases c with _ | w
      · rw [hg] at hv; simp at hv
      · rw [hg] at hv
        simp only [Option.some.injEq] at hv
        rw [hv]
  · rintro ⟨r, hr, hv⟩
    exact ⟨r, hr, by rw [hv]⟩

theorem nunique_dropDup (rows : List (List Cell)) (k : Nat) :
    nunique (dropDup rows) k = nunique rows k := by
  have hset : (colValues (dropDup rows) k).toFinset = (colValues rows k).toFinset := by
    apply Finset.ext
    intro v
    simp only [List.mem_toFinset, colValues_mem]
    constructor
    · rintro ⟨r, hr, hv⟩
      exact ⟨r, mem_dropDup.mp hr, hv⟩
    · rintro ⟨r, hr, hv⟩
      exact ⟨r, mem_dropDup.mpr hr, hv⟩
  have h1 := List.card_toFinset (colValues (dropDup rows) k)
  have h2 := List.card_toFinset (colValues rows k)
  unfold nunique
  rw [← h1, ← h2, hset]

/-! ## The normalization pipeline under well-formed, null-free input -/

theorem map_eq_self {α : Type} {l : List α} {f : α → α}
    (h : ∀ a ∈ l, f a = a) : l.map f = l := by
  induction l with
  | nil => rfl
  | cons a l ih =>
    simp only [List.map_cons]
    rw [h a (List.mem_cons_self _ _), ih (fun b hb => h b (List.mem_cons_of_mem _ hb))]

theorem normalizeDF_eq_normMid {df : DF} (hwf : WF df = true)
    (hnn : noNulls df = true) : normalizeDF df = normMid df := by
  simp only [normalizeDF, normMid, List.map_map]
  congr 1
  apply map_eq_self
  intro r hr
  have hr0 : r ∈ df.rows := mem_dropDup.mp hr
  have hok : rowOk (dtypes df.schema) r = true := by
    have := List.all_eq_true.mp hwf r hr0
    exact this
  have hsome : r.all Option.isSome = true := List.all_eq_true.mp hnn r hr0
  have hok2 : rowOk (dtypes (demoteSchema df.rows df.schema)) r = true :=
    rowOk_demoteAux df.schema 0 r hok
  exact mapRow_fills_id _ r hok2 hsome

theorem normalizeDF_normMid_fixed {df : DF} (hwf : WF df = true)
    (hnn : noNulls df = true) : normalizeDF (normMid df) = normMid df := by
  have hschema : demoteSchema (normMid df).rows (normMid df).schema = (normMid df).schema :=
    demoteAux_stable (nunique_dropDup df.rows) df.schema 0
  simp only [normalizeDF, List.map_map]
  rw [hschema]
  have hdd : dropDup (normMid df).rows = (normMid df).rows := dropDup_idem _
  rw [hdd]
  have hmapid :
      (normMid df).rows.map
        ((fun r => mapRow astypeStrCell (dtypes (normMid df).schema) r) ∘
          (fun r => mapRow fillObjCell (dtypes (normMid df).schema) r) ∘
          (fun r => mapRow fillNumCell (dtypes (normMid df).schema) r)) = (normMid df).rows := by
    apply map_eq_self
    intro r hr
    have hr0 : r ∈ df.rows := mem_dropDup.mp hr
    have hok : rowOk (dtypes df.schema) r = true := List.all_eq_true.mp hwf r hr0
    have hsome : r.all Option.isSome = true := List.all_eq_true.mp hnn r hr0
    exact mapRow_fills_id _ r (rowOk_demoteAux df.schema 0 r hok) hsome
  rw [hmapid]

/-! ## Claim C3: missing-value policy -/

/-- C3 counterexample: the claim says every absent/null value of a
string or categorical column is filled with "No Answer".  On `exC3` the
string column has fewer than 10 distinct values, so
`_preprocess_dataframes` demotes it to `category` dtype before the fill,
and `fillna("No Answer")` — which selects only `object` dtype columns —
never touches it: the null survives in the output. -/
theorem c3_missing_value_fill_cex :
    (normalizeDF exC3).schema = [("g", Dtype.category)] ∧
      (normalizeDF exC3).rows = [[some (Val.s "a")], [none]] := by
  constructor <;> rfl

/-- C3 amended: in the normalized output, positionally over the
deduplicated rows, nulls of `float64` columns become `0`, nulls of
`int64` columns become `0`, nulls of columns that remain `object` dtype
become "No Answer", non-null numeric cells are unchanged — but cells of
`category` columns (including every string column demoted for low
cardinality) pass through entirely unchanged, nulls included. -/
theorem c3_missing_value_fill_amended :
    ∀ (df : DF) (i k : Nat) (dt : Dtype) (c : Cell) (row : List Cell),
      (dtypes (demoteSchema df.rows df.schema)).get? k = some dt →
      (dropDup df.rows).get? i = some row →
      row.get? k = some c →
      ∃ row2, (normalizeDF df).rows.get? i = some row2 ∧
        ((dt = Dtype.float64 → c = none → row2.get? k = some (some (Val.r 0))) ∧
         (dt = Dtype.int64 → c = none → row2.get? k = some (some (Val.i 0))) ∧
         (dt = Dtype.object → c = none → row2.get? k = some (some (Val.s "No Answer"))) ∧
         (dt = Dtype.category → row2.get? k = some c) ∧
         ((dt = Dtype.float64 ∨ dt = Dtype.int64) → c ≠ none → row2.get? k = some c)) := by
  intro df i k dt c row hdt hrow hc
  refine ⟨mapRow astypeStrCell (dtypes (demoteSchema df.rows df.schema))
      (mapRow fillObjCell (dtypes (demoteSchema df.rows df.schema))
        (mapRow fillNumCell (dtypes (demoteSchema df.rows df.schema)) row)), ?_, ?_⟩
  · simp only [normalizeDF, List.get?_map, hrow, Option.map_some']
  · have h1 := mapRow_get? (f := fillNumCell) _ row k dt c hdt hc
    have h2 := mapRow_get? (f := fillObjCell) _ _ k dt _ hdt h1
    have h3 := mapRow_get? (f := astypeStrCell) _ _ k dt _ hdt h2
    refine ⟨?_, ?_, ?_, ?_, ?_⟩
    · rintro rfl rfl; exact h3
    · rintro rfl rfl; exact h3
    · rintro rfl rfl; exact h3
    · rintro rfl; exact h3
    · rintro (rfl | rfl) hne <;> rcases c with _ | v <;> first
        | exact absurd rfl hne
        | exact h3

/-- C3 witness: the amended statement applied at `dfW3`, row 0, the
float column (null filled with 0). -/
theorem c3_missing_value_fill_amended_witness :
    (dtypes (demoteSchema dfW3.rows dfW3.schema)).get? 0 = some Dtype.float64 ∧
      (dropDup dfW3.rows).get? 0 = some [none, some (Val.s "v0")] ∧
      ∃ row2, (normalizeDF dfW3).rows.get? 0 = some row2 ∧
        ((Dtype.float64 = Dtype.float64 → (none : Cell) = none →
            row2.get? 0 = some (some (Val.r 0))) ∧
         (Dtype.float64 = Dtype.int64 → (none : Cell) = none →
            row2.get? 0 = some (some (Val.i 0))) ∧
         (Dtype.float64 = Dtype.object → (none : Cell) = none →
            row2.get? 0 = some (some (Val.s "No Answer"))) ∧
         (Dtype.float64 = Dtype.category → row2.get? 0 = some (none : Cell)) ∧
         ((Dtype.float64 = Dtype.float64 ∨ Dtype.float64 = Dtype.int64) →
            (none : Cell) ≠ none → row2.get? 0 = some (none : Cell))) := by
  refine ⟨by decide, by decide, ?_⟩
  have h := c3_missing_value_fill_amended dfW3 0 0 Dtype.float64 none
    [none, some (Val.s "v0")] (by decide) (by decide) (by decide)
  rcases h with ⟨row2, h1, h2⟩
  exact ⟨row2, h1, h2⟩

/-! ## Claim C4: idempotence of normalization -/

/-- C4 counterexample: normalization is not idempotent.  On `exC4` the
first pass deduplicates before filling, so filling the null with 0
creates two identical rows; the second pass collapses them, and
`normalize (normalize exC4) ≠ normalize exC4`. -/
theorem c4_normalize_idempotent_cex :
    normalizeDF (normalizeDF exC4) ≠ normalizeDF exC4 := by decide

/-- C4 amended: normalization (a pure, total function in this model) is
idempotent on well-formed record sets with no missing values; with
missing values present, the fill steps run after deduplication and can
merge rows, so idempotence fails in general (see the counterexample). -/
theorem c4_normalize_idempotent_amended :
    ∀ df : DF, WF df = true → noNulls df = true →
      normalizeDF (normalizeDF df) = normalizeDF df := by
  intro df hwf hnn
  rw [normalizeDF_eq_normMid hwf hnn]
  exact normalizeDF_normMid_fixed hwf hnn

/-- C4 witness: the amended idempotence applied at `dfW4`. -/
theorem c4_normalize_idempotent_amended_witness :
    WF dfW4 = true ∧ noNulls dfW4 = true ∧
      normalizeDF (normalizeDF dfW4) = normalizeDF dfW4 :=
  ⟨by decide, by decide, c4_normalize_idempotent_amended dfW4 (by decide) (by decide)⟩

/-! ## Lemmas on the connection retry loop -/

theorem connLoop_allFail {succ : Nat → Bool} (hfail : ∀ k, succ k = false) :
    ∀ (n f : Nat), connLoop succ f n = (f + n, false) := by
  intro n
  induction n with
  | zero => intro f; rfl
  | succ n ih =>
    intro f
    simp only [connLoop, hfail (f + 1), Bool.false_eq_true, if_false]
    rw [ih (f + 1)]
    have : f + 1 + n = f + (n + 1) := by omega
    rw [this]

theorem connLoop_firstSucc {succ : Nat → Bool} :
    ∀ (n f K : Nat), f < K → K ≤ f + n → succ K = true →
      (∀ j, f < j → j < K → succ j = false) →
      connLoop succ f n = (K - 1, true) := by
  intro n
  induction n with
  | zero =>
    intro f K h1 h2 _ _
    omega
  | succ n ih =>
    intro f K h1 h2 hK hprev
    by_cases hfk : K = f + 1
    · subst hfk
      simp only [connLoop, hK, if_true]
      rfl
    · have hlt : f + 1 < K := by omega
      have hf1 : succ (f + 1) = false := hprev (f + 1) (by omega) hlt
      simp only [connLoop, hf1, if_false]
      exact ih (f + 1) K hlt (by omega) hK (fun j hj1 hj2 => hprev j (by omega) hj2)

/-! ## Claim C2: exact retry counts of connect -/

/-- C2 confirmed: with `max_retries = N ≥ 1`, if every connection
attempt fails then `_try_to_connect_n_times` makes exactly N attempts
and raises `ConnectionError`; if the first success is attempt `K ≤ N`
then exactly K attempts are made and the engine is returned, and
`connect` (after its configuration check) stores that engine with the
same attempt counts. -/
theorem c2_connect_retry_exact :
    ∀ (succ : Nat → Bool) (N : Nat), 1 ≤ N →
      ((∀ k, succ k = false) →
        tryToConnectNTimes succ N = (Except.error (), N)) ∧
      (∀ K, 1 ≤ K → K ≤ N → succ K = true →
        (∀ j, 1 ≤ j → j < K → succ j = false) →
        tryToConnectNTimes succ N = (Except.ok { disposed := false }, K)) ∧
      (∀ cfg : ConfigMap, configComplete cfg = true →
        ((∀ k, succ k = false) →
          connect cfg succ N = (Except.error DBError.connectionError, N)) ∧
        (∀ K, 1 ≤ K → K ≤ N → succ K = true →
          (∀ j, 1 ≤ j → j < K → succ j = false) →
          connect cfg succ N = (Except.ok { disposed := false }, K))) := by
  intro succ N hN
  have hfailCase : (∀ k, succ k = false) →
      tryToConnectNTimes succ N = (Except.error (), N) := by
    intro hfail
    have hloop : connLoop succ 0 N = (N, false) := by
      have h := connLoop_allFail hfail N 0
      simpa using h
    simp [tryToConnectNTimes, hloop]
  have hsuccCase : ∀ K, 1 ≤ K → K ≤ N → succ K = true →
      (∀ j, 1 ≤ j → j < K → succ j = false) →
      tryToConnectNTimes succ N = (Except.ok { disposed := false }, K) := by
    intro K hK1 hKN hK hprev
    have hloop : connLoop succ 0 N = (K - 1, true) :=
      connLoop_firstSucc N 0 K (by omega) (by omega) hK
        (fun j hj1 hj2 => hprev j (by omega) hj2)
    have hne : ¬(K - 1 = N) := by omega
    have hK' : K - 1 + 1 = K := by omega
    simp [tryToConnectNTimes, hloop, hne, hK']
  refine ⟨hfailCase, hsuccCase, ?_⟩
  intro cfg hcfg
  constructor
  · intro hfail
    simp only [connect, hcfg, if_true, hfailCase hfail]
  · intro K hK1 hKN hK hprev
    simp only [connect, hcfg, if_true, hsuccCase K hK1 hKN hK hprev]

/-- C2 witness: attempts 1 fails, attempt 2 succeeds, `max_retries = 3`:
exactly 2 attempts, engine returned; and with an always-failing
connection, exactly 3 attempts then the error. -/
theorem c2_connect_retry_exact_witness :
    tryToConnectNTimes (fun k => decide (k = 2)) 3 =
        (Except.ok { disposed := false }, 2) ∧
      tryToConnectNTimes (fun _ => false) 3 = (Except.error (), 3) :=
  ⟨((c2_connect_retry_exact (fun k => decide (k = 2)) 3 (by decide)).2.1) 2
      (by decide) (by decide) (by decide) (by decide),
    (c2_connect_retry_exact (fun _ => false) 3 (by decide)).1 (fun _ => rfl)⟩

/-! ## Claim C6: configuration validation -/

/-- C6 counterexample theorem: `setup` succeeds on a configuration whose
`DB_USER` field is missing, contradicting the claim that `setup` itself
validates completeness and fails with `ConfigurationError`. -/
theorem c6_setup_validation_cex :
    setup cfgMissingUser = Except.ok cfgMissingUser ∧
      truthy (cget cfgMissingUser "DB_USER") = false := by
  constructor <;> rfl

/-- C6 amended: when any one of the five required fields is missing or
empty, `connect` fails with the configuration error before any
connection attempt is made (zero attempts); `setup` performs no
completeness validation at all — it merely loads and stores the
configuration mapping, and the validation happens only inside
`connect`. -/
theorem c6_connect_validates_amended :
    (∀ (cfg : ConfigMap) (succ : Nat → Bool) (N : Nat),
      (truthy (cget cfg "DB_USER") = false ∨ truthy (cget cfg "DB_PASSWORD") = false ∨
       truthy (cget cfg "DB_HOST") = false ∨ truthy (cget cfg "DB_PORT") = false ∨
       truthy (cget cfg "DB_NAME") = false) →
      connect cfg succ N = (Except.error DBError.configurationError, 0)) ∧
    (∀ cfg : ConfigMap, setup cfg = Except.ok cfg) := by
  constructor
  · intro cfg succ N hmiss
    have hfalse : configComplete cfg = false := by
      simp only [configComplete, Bool.and_eq_false_iff]
      rcases hmiss with h | h | h | h | h <;> simp [h]
    simp only [connect, hfalse, Bool.false_eq_true, if_false]
  · intro cfg
    rfl

/-- C6 witness: the amended statement applied at `cfgMissingUser`. -/
theorem c6_connect_validates_amended_witness :
    truthy (cget cfgMissingUser "DB_USER") = false ∧
      connect cfgMissingUser (fun _ => true) 3 =
        (Except.error DBError.configurationError, 0) :=
  ⟨by decide,
    c6_connect_validates_amended.1 cfgMissingUser (fun _ => true) 3 (Or.inl (by decide))⟩

/-! ## Claim C7: closing twice is safe -/

/-- C7 confirmed: when `dispose` does not itself fail, `close_connection`
never raises, disposes exactly when the liveness check reports the
connection up, and a second call in a row reports "already closed" and
leaves the state unchanged; when `dispose` fails on a live engine the
failure is wrapped as `ConnectionError`. -/
theorem c7_close_twice_safe :
    (∀ st : PgState,
      (closeConnection false st).1 ≠ CloseOutcome.raisedError ∧
      (closeConnection false (closeConnection false st).2).1 ≠ CloseOutcome.raisedError ∧
      ((closeConnection false st).1 = CloseOutcome.disposedNow ↔
        isTheConnectionUp st = true) ∧
      ((closeConnection false st).1 = CloseOutcome.disposedNow →
        (closeConnection false (closeConnection false st).2).1 =
            CloseOutcome.alreadyClosed ∧
          (closeConnection false (closeConnection false st).2).2 =
            (closeConnection false st).2)) ∧
    (∀ st : PgState, isTheConnectionUp st = true →
      (closeConnection true st).1 = CloseOutcome.raisedError) := by
  constructor
  · intro st
    obtain ⟨eng, db⟩ := st
    rcases eng with _ | e
    · cases db <;> decide
    · obtain ⟨d⟩ := e
      cases d <;> cases db <;> decide
  · intro st
    obtain ⟨eng, db⟩ := st
    rcases eng with _ | e
    · cases db <;> decide
    · obtain ⟨d⟩ := e
      cases d <;> cases db <;> decide

/-- C7 witness: a live undisposed engine — the first close disposes, the
second reports "already closed"; with a failing dispose the call
raises. -/
theorem c7_close_twice_safe_witness :
    (closeConnection false { engine := some { disposed := false }, dbUp := true }).1 =
        CloseOutcome.disposedNow ∧
      (closeConnection false
          (closeConnection false
            { engine := some { disposed := false }, dbUp := true }).2).1 =
        CloseOutcome.alreadyClosed ∧
      (closeConnection true { engine := some { disposed := false }, dbUp := true }).1 =
        CloseOutcome.raisedError := by
  have h1 := (c7_close_twice_safe.1 { engine := some { disposed := false }, dbUp := true })
  have h2 := c7_close_twice_safe.2 { engine := some { disposed := false }, dbUp := true } rfl
  have hdisposed : (closeConnection false
      { engine := some { disposed := false }, dbUp := true }).1 =
      CloseOutcome.disposedNow := h1.2.2.1.mpr rfl
  exact ⟨hdisposed, (h1.2.2.2 hdisposed).1, h2⟩

/-! ## Claim C8: the liveness check never raises -/

/-- C8 confirmed: `is_the_connection_up` is a total boolean check — with
no stored engine, or with the probe failing (database unreachable), it
returns `false` rather than raising; in particular the absent-engine
attribute error is caught and reported as `false`. -/
theorem c8_is_up_never_raises :
    ∀ st : PgState, st.engine = none ∨ st.dbUp = false →
      isTheConnectionUp st = false := by
  intro st h
  rcases h with h | h
  · simp [isTheConnectionUp, h]
  · rcases he : st.engine with _ | e
    · simp [isTheConnectionUp, he]
    · simp [isTheConnectionUp, he, h]

/-- C8 witness: no engine stored (even with the database reachable) —
the check returns false. -/
theorem c8_is_up_never_raises_witness :
    isTheConnectionUp { engine := none, dbUp := true } = false :=
  c8_is_up_never_raises { engine := none, dbUp := true } (Or.inl rfl)

/-! ## Lemmas on the ingestion loop -/

theorem f2dLoop_cons_csv (f : RawFile) (fs : List RawFile) (acc : List (String × DF)) :
    f2dLoop ".csv" (f :: fs) acc =
      match f.parseCsv with
      | some df => f2dLoop ".csv" fs (pyInsert acc (truncAtDot f.name) df)
      | none => none := rfl

theorem f2dLoop_cons_json (f : RawFile) (fs : List RawFile) (acc : List (String × DF)) :
    f2dLoop ".json" (f :: fs) acc =
      match f.parseJson with
      | some df => f2dLoop ".json" fs (pyInsert acc (truncAtDot f.name) df)
      | none => none := rfl

theorem f2dLoopR_cons (ext : String) (f : RawFile) (fs : List RawFile)
    (acc : List (String × DF)) :
    f2dLoopR ext (f :: fs) acc =
      match readerFor ext f with
      | some df => f2dLoopR ext fs (pyInsert acc (truncAtDot f.name) df)
      | none => none := rfl

theorem f2dLoop_eq_R {ext : String} (hext : ext = ".csv" ∨ ext = ".json") :
    ∀ (fs : List RawFile) (acc : List (String × DF)),
      f2dLoop ext fs acc = f2dLoopR ext fs acc := by
  rcases hext with rfl | rfl
  · intro fs
    induction fs with
    | nil => intro acc; rfl
    | cons f fs ih =>
      intro acc
      rw [f2dLoop_cons_csv, f2dLoopR_cons]
      have hr : readerFor ".csv" f = f.parseCsv := rfl
      rw [hr]
      cases f.parseCsv with
      | none => rfl
      | some df => exact ih _
  · intro fs
    induction fs with
    | nil => intro acc; rfl
    | cons f fs ih =>
      intro acc
      rw [f2dLoop_cons_json, f2dLoopR_cons]
      have hr : readerFor ".json" f = f.parseJson := rfl
      rw [hr]
      cases f.parseJson with
      | none => rfl
      | some df => exact ih _

theorem pyInsert_cons_eq (rest : List (String × DF)) (k : String) (v v0 : DF) :
    pyInsert ((k, v0) :: rest) k v = (k, v) :: rest := by
  simp [pyInsert]

theorem pyInsert_cons_ne (rest : List (String × DF)) (k0 : String) (v0 : DF)
    (k : String) (v : DF) (h : k0 ≠ k) :
    pyInsert ((k0, v0) :: rest) k v = (k0, v0) :: pyInsert rest k v := by
  simp [pyInsert, h]

theorem lookupDF_pyInsert (m : List (String × DF)) (k : String) (v : DF) (j : String) :
    lookupDF (pyInsert m k v) j = if k = j then some v else lookupDF m j := by
  induction m with
  | nil => rfl
  | cons e rest ih =>
    obtain ⟨k0, v0⟩ := e
    by_cases h0 : k0 = k
    · subst h0
      rw [pyInsert_cons_eq]
      by_cases hj : k0 = j <;> simp [lookupDF, hj]
    · rw [pyInsert_cons_ne _ _ _ _ _ h0]
      by_cases hj : k0 = j
      · subst hj
        have hk : ¬(k = k0) := fun h => h0 h.symm
        simp [lookupDF, hk]
      · simp [lookupDF, hj, ih]

theorem mem_keysOf_pyInsert {m : List (String × DF)} {k : String} {v : DF} {j : String} :
    j ∈ keysOf (pyInsert m k v) ↔ j ∈ keysOf m ∨ j = k := by
  induction m with
  | nil => simp [pyInsert, keysOf]
  | cons e rest ih =>
    obtain ⟨k0, v0⟩ := e
    by_cases h0 : k0 = k
    · subst h0
      rw [pyInsert_cons_eq]
      simp only [keysOf, List.map_cons, List.mem_cons]
      constructor
      · rintro (rfl | h)
        · exact Or.inr rfl
        · exact Or.inl (Or.inr h)
      · rintro ((rfl | h) | rfl)
        · exact Or.inl rfl
        · exact Or.inr h
        · exact Or.inl rfl
    · rw [pyInsert_cons_ne _ _ _ _ _ h0]
      simp only [keysOf, List.map_cons, List.mem_cons] at ih ⊢
      constructor
      · rintro (rfl | h)
        · exact Or.inl (Or.inl rfl)
        · rcases ih.mp h with h | h
          · exact Or.inl (Or.inr h)
          · exact Or.inr h
      · rintro ((rfl | h) | rfl)
        · exact Or.inl rfl
        · exact Or.inr (ih.mpr (Or.inl h))
        · exact Or.inr (ih.mpr (Or.inr rfl))

theorem keysOf_pyInsert_nodup {m : List (String × DF)} {k : String} {v : DF}
    (h : (keysOf m).Nodup) : (keysOf (pyInsert m k v)).Nodup := by
  induction m with
  | nil => simp [pyInsert, keysOf]
  | cons e rest ih =>
    obtain ⟨k0, v0⟩ := e
    simp only [keysOf, List.map_cons, List.nodup_cons] at h
    by_cases h0 : k0 = k
    · subst h0
      rw [pyInsert_cons_eq]
      simp only [keysOf, List.map_cons, List.nodup_cons]
      exact h
    · rw [pyInsert_cons_ne _ _ _ _ _ h0]
      simp only [keysOf, List.map_cons, List.nodup_cons]
      refine ⟨?_, ih h.2⟩
      intro hmem
      rcases mem_keysOf_pyInsert.mp hmem with hmem | hmem
      · exact h.1 hmem
      · exact h0 hmem

theorem f2dLoopR_of_fail {ext : String} {f : RawFile} (hf : readerFor ext f = none) :
    ∀ (fs : List RawFile) (acc : List (String × DF)), f ∈ fs →
      f2dLoopR ext fs acc = none := by
  intro fs
  induction fs with
  | nil => intro acc h; simp at h
  | cons g gs ih =>
    intro acc hmem
    rw [f2dLoopR_cons]
    cases hg : readerFor ext g with
    | none => rfl
    | some df =>
      rcases List.mem_cons.mp hmem with rfl | hmem
      · rw [hg] at hf; cases hf
      · exact ih _ hmem

theorem f2dLoopR_isSome {ext : String} :
    ∀ (fs : List RawFile), (∀ f ∈ fs, (readerFor ext f).isSome = true) →
      ∀ acc : List (String × DF), ∃ m, f2dLoopR ext fs acc = some m := by
  intro fs
  induction fs with
  | nil => intro _ acc; exact ⟨acc, rfl⟩
  | cons g gs ih =>
    intro hok acc
    have hg := hok g (List.mem_cons_self _ _)
    rcases hgr : readerFor ext g with _ | df
    · rw [hgr] at hg; simp at hg
    · rw [f2dLoopR_cons, hgr]
      exact ih (fun f hf => hok f (List.mem_cons_of_mem _ hf)) _

theorem f2dLoopR_keys_nodup {ext : String} :
    ∀ (fs : List RawFile) (acc m : List (String × DF)), (keysOf acc).Nodup →
      f2dLoopR ext fs acc = some m → (keysOf m).Nodup := by
  intro fs
  induction fs with
  | nil =>
    intro acc m hnd hloop
    cases hloop
    exact hnd
  | cons g gs ih =>
    intro acc m hnd hloop
    rw [f2dLoopR_cons] at hloop
    cases hg : readerFor ext g with
    | none => rw [hg] at hloop; cases hloop
    | some df =>
      rw [hg] at hloop
      exact ih _ m (keysOf_pyInsert_nodup hnd) hloop

theorem f2dLoopR_keys_iff {ext : String} :
    ∀ (fs : List RawFile) (acc m : List (String × DF)),
      f2dLoopR ext fs acc = some m →
      ∀ j, j ∈ keysOf m ↔ (j ∈ keysOf acc ∨ ∃ f ∈ fs, truncAtDot f.name = j) := by
  intro fs
  induction fs with
  | nil =>
    intro acc m hloop j
    cases hloop
    simp
  | cons g gs ih =>
    intro acc m hloop j
    rw [f2dLoopR_cons] at hloop
    cases hg : readerFor ext g with
    | none => rw [hg] at hloop; cases hloop
    | some df =>
      rw [hg] at hloop
      rw [ih _ m hloop j]
      constructor
      · rintro (h | ⟨f, hf, hjf⟩)
        · rcases mem_keysOf_pyInsert.mp h with h | rfl
          · exact Or.inl h
          · exact Or.inr ⟨g, List.mem_cons_self _ _, rfl⟩
        · exact Or.inr ⟨f, List.mem_cons_of_mem _ hf, hjf⟩
      · rintro (h | ⟨f, hf, hjf⟩)
        · exact Or.inl (mem_keysOf_pyInsert.mpr (Or.inl h))
        · rcases List.mem_cons.mp hf with rfl | hf
          · exact Or.inl (mem_keysOf_pyInsert.mpr (Or.inr hjf.symm))
          · exact Or.inr ⟨f, hf, hjf⟩

theorem f2dLoopR_lookup_last {ext : String} :
    ∀ (fs : List RawFile) (acc m : List (String × DF)),
      (∀ f ∈ fs, (readerFor ext f).isSome = true) →
      f2dLoopR ext fs acc = some m →
      ∀ j : String,
        ((fs.filter (fun f => truncAtDot f.name == j)) = [] →
          lookupDF m j = lookupDF acc j) ∧
        (∀ g, (fs.filter (fun f => truncAtDot f.name == j)).getLast? = some g →
          lookupDF m j = readerFor ext g) := by
  intro fs
  induction fs with
  | nil =>
    intro acc m _ hloop j
    cases hloop
    exact ⟨fun _ => rfl, fun g hg => by simp at hg⟩
  | cons g gs ih =>
    intro acc m hok hloop j
    rw [f2dLoopR_cons] at hloop
    have hg := hok g (List.mem_cons_self _ _)
    rcases hgr : readerFor ext g with _ | df
    · rw [hgr] at hg; simp at hg
    · rw [hgr] at hloop
      have ihm := ih _ m (fun f hf => hok f (List.mem_cons_of_mem _ hf)) hloop j
      by_cases hkey : truncAtDot g.name = j
      · constructor
        · intro hfil
          rw [List.filter_cons_of_pos (by simp [hkey])] at hfil
          simp at hfil
        · intro g2 hlast
          rw [List.filter_cons_of_pos (by simp [hkey])] at hlast
          rcases hfil : gs.filter (fun f => truncAtDot f.name == j) with _ | ⟨x, xs⟩
          · rw [hfil] at hlast
            simp only [List.getLast?_singleton, Option.some.injEq] at hlast
            subst hlast
            rw [ihm.1 hfil, lookupDF_pyInsert, if_pos hkey, hgr]
          · rw [hfil, List.getLast?_cons_cons] at hlast
            exact ihm.2 g2 (by rw [hfil]; exact hlast)
      · rw [List.filter_cons_of_neg (by simp [hkey])]
        constructor
        · intro hfil
          rw [ihm.1 hfil, lookupDF_pyInsert, if_neg hkey]
        · intro g2 hlast
          exact ihm.2 g2 hlast

theorem f2dLoop_key_src :
    ∀ (ext : String) (fs : List RawFile) (acc m : List (String × DF)) (j : String) (w : DF),
      f2dLoop ext fs acc = some m → (j, w) ∈ m →
      j ∈ keysOf acc ∨ ∃ f ∈ fs, j = truncAtDot f.name := by
  intro ext fs
  induction fs with
  | nil =>
    intro acc m j w hloop hmem
    cases hloop
    exact Or.inl (List.mem_map_of_mem Prod.fst hmem)
  | cons f fs ih =>
    intro acc m j w hloop hmem
    by_cases hcsv : ext = ".csv"
    · subst hcsv
      rw [f2dLoop_cons_csv] at hloop
      cases hp : f.parseCsv with
      | none => rw [hp] at hloop; cases hloop
      | some df =>
        rw [hp] at hloop
        rcases ih _ _ j w hloop hmem with h | ⟨g, hg, hj⟩
        · rcases mem_keysOf_pyInsert.mp h with h | rfl
          · exact Or.inl h
          · exact Or.inr ⟨f, List.mem_cons_self _ _, rfl⟩
        · exact Or.inr ⟨g, List.mem_cons_of_mem _ hg, hj⟩
    · by_cases hjson : ext = ".json"
      · subst hjson
        rw [f2dLoop_cons_json] at hloop
        cases hp : f.parseJson with
        | none => rw [hp] at hloop; cases hloop
        | some df =>
          rw [hp] at hloop
          rcases ih _ _ j w hloop hmem with h | ⟨g, hg, hj⟩
          · rcases mem_keysOf_pyInsert.mp h with h | rfl
            · exact Or.inl h
            · exact Or.inr ⟨f, List.mem_cons_self _ _, rfl⟩
          · exact Or.inr ⟨g, List.mem_cons_of_mem _ hg, hj⟩
      · have hstep : f2dLoop ext (f :: fs) acc = f2dLoop ext fs acc := by
          simp only [f2dLoop]
          rw [if_neg hcsv, if_neg hjson]
        rw [hstep] at hloop
        rcases ih _ _ j w hloop hmem with h | ⟨g, hg, hj⟩
        · exact Or.inl h
        · exact Or.inr ⟨g, List.mem_cons_of_mem _ hg, hj⟩

/-! ## Claim C5: empty parse result aborts with the no-data error -/

/-- C5 confirmed: when the directory has no file matching the extension
the parsed mapping is empty, and whenever the parsed mapping is empty —
zero files successfully parsed, for whatever reason — both handler
variants raise the no-data `ValueError` and no table write is attempted
(the run returns the error instead of a write list). -/
theorem c5_no_data_error :
    (∀ (ext : String) (dir : List RawFile),
      dir.filter (fun f => pyEndsWith f.name ext) = [] →
      files2dataframes ext dir = []) ∧
    (∀ (ext : String) (dir : List RawFile),
      files2dataframes ext dir = [] →
      files2tables ext dir = Except.error () ∧
        files2tablesH ext dir = Except.error ()) := by
  constructor
  · intro ext dir hfil
    unfold files2dataframes
    rw [hfil]
    rfl
  · intro ext dir hempty
    constructor
    · simp only [files2tables, hempty]
      rfl
    · simp only [files2tablesH, hempty]
      rfl

/-- C5 witness: the no-data error on a directory with zero matching
files, for both handler variants. -/
theorem c5_no_data_error_witness :
    files2dataframes ".csv" dirC5 = [] ∧
      files2tables ".csv" dirC5 = Except.error () ∧
        files2tablesH ".csv" dirC5 = Except.error () := by
  have h1 := c5_no_data_error.1 ".csv" dirC5 (by decide)
  exact ⟨h1, c5_no_data_error.2 ".csv" dirC5 h1⟩

/-! ## Claim C1: one parse failure and the whole batch -/

/-- C1 counterexample: the claim says the malformed `b.csv` does not
abort the batch and table `a` is still written.  In the code the reader
exception propagates out of the per-file loop into the surrounding
try/except, which resets the whole mapping to `{}`: nothing is written
and the run aborts with the no-data error. -/
theorem c1_parse_failure_aborts_batch_cex :
    files2dataframes ".csv" dirC1 = [] ∧
      files2tables ".csv" dirC1 = Except.error () := by
  constructor <;> rfl

/-- C1 amended: a parse failure of any matching file makes
`_files2dataframes` discard every dataframe (the exception escapes the
per-file loop and the handler returns the empty mapping), so the
parseable files are lost too and the run aborts with the no-data error
in both handler variants. -/
theorem c1_parse_failure_discards_all :
    ∀ (ext : String) (dir : List RawFile) (f : RawFile),
      (ext = ".csv" ∨ ext = ".json") → f ∈ dir → pyEndsWith f.name ext = true →
      readerFor ext f = none →
      files2dataframes ext dir = [] ∧ files2tables ext dir = Except.error () ∧
        files2tablesH ext dir = Except.error () := by
  intro ext dir f hext hf hend hfail
  have hmem : f ∈ dir.filter (fun g => pyEndsWith g.name ext) :=
    List.mem_filter.mpr ⟨hf, hend⟩
  have hempty : files2dataframes ext dir = [] := by
    unfold files2dataframes
    rw [f2dLoop_eq_R hext, f2dLoopR_of_fail hfail _ _ hmem]
  refine ⟨hempty, ?_, ?_⟩
  · simp only [files2tables, hempty]
    rfl
  · simp only [files2tablesH, hempty]
    rfl

/-- C1 witness: the amended statement applied to the malformed `b.csv`
of `dirC1`. -/
theorem c1_parse_failure_discards_all_witness :
    files2dataframes ".csv" dirC1 = [] ∧ files2tables ".csv" dirC1 = Except.error () ∧
      files2tablesH ".csv" dirC1 = Except.error () :=
  c1_parse_failure_discards_all ".csv" dirC1 fileB (Or.inl rfl) (by decide) (by decide) rfl

/-! ## Claim C9: table name is the file name truncated at the first dot -/

/-- C9 confirmed: every key of the parsed mapping — the table name under
which a dataframe is written — is some discovered matching file's name
truncated at its first dot; in particular `a.b.csv` yields table name
`a`. -/
theorem c9_table_name_first_dot :
    (∀ (ext : String) (dir : List RawFile) (j : String) (w : DF),
      (j, w) ∈ files2dataframes ext dir →
      ∃ f ∈ dir, pyEndsWith f.name ext = true ∧ j = truncAtDot f.name) ∧
    truncAtDot "a.b.csv" = "a" := by
  constructor
  · intro ext dir j w hmem
    unfold files2dataframes at hmem
    rcases hloop : f2dLoop ext (dir.filter (fun f => pyEndsWith f.name ext)) [] with _ | m
    · rw [hloop] at hmem
      simp at hmem
    · rw [hloop] at hmem
      rcases f2dLoop_key_src ext _ _ m j w hloop hmem with h | ⟨f, hf, hj⟩
      · simp [keysOf] at h
      · have hfil := List.mem_filter.mp hf
        exact ⟨f, hfil.1, hfil.2, hj⟩
  · rfl

/-- C9 witness: the mapping of `dirC9` stores its dataframe under key
`a`, and that key is the file name truncated at the first dot. -/
theorem c9_table_name_first_dot_witness :
    ("a", dfA) ∈ files2dataframes ".csv" dirC9 ∧
      ∃ f ∈ dirC9, pyEndsWith f.name ".csv" = true ∧ "a" = truncAtDot f.name := by
  have hmem : ("a", dfA) ∈ files2dataframes ".csv" dirC9 := by decide
  exact ⟨hmem, c9_table_name_first_dot.1 ".csv" dirC9 "a" dfA hmem⟩

/-! ## Claim C10: table-name collisions -/

/-- C10 confirmed: when every matching file parses, the mapping's keys
are distinct (at most one table per name), the dataframe stored under a
key is the one of the last-listed matching file whose truncated name is
that key (the later file silently overwrites the earlier one), the
number of tables is at most — and under a collision strictly less
than — the number of parsed files, and the run still succeeds with no
error. -/
theorem c10_collision_last_wins :
    ∀ (ext : String) (dir : List RawFile),
      (ext = ".csv" ∨ ext = ".json") →
      (∀ f ∈ dir.filter (fun g => pyEndsWith g.name ext),
        (readerFor ext f).isSome = true) →
      ((keysOf (files2dataframes ext dir)).Nodup ∧
       (∀ (j : String) (g : RawFile),
         ((dir.filter (fun g2 => pyEndsWith g2.name ext)).filter
             (fun f => truncAtDot f.name == j)).getLast? = some g →
         lookupDF (files2dataframes ext dir) j = readerFor ext g) ∧
       (files2dataframes ext dir).length ≤
         (dir.filter (fun g => pyEndsWith g.name ext)).length ∧
       (¬ ((dir.filter (fun g => pyEndsWith g.name ext)).map
            (fun f => truncAtDot f.name)).Nodup →
         (files2dataframes ext dir).length <
           (dir.filter (fun g => pyEndsWith g.name ext)).length) ∧
       (dir.filter (fun g => pyEndsWith g.name ext) ≠ [] →
         files2tables ext dir = Except.ok (files2dataframes ext dir))) := by
  intro ext dir hext hok
  obtain ⟨m, hloop⟩ :=
    f2dLoopR_isSome (dir.filter (fun g => pyEndsWith g.name ext)) hok []
  have hm : files2dataframes ext dir = m := by
    unfold files2dataframes
    rw [f2dLoop_eq_R hext, hloop]
  have hnd : (keysOf m).Nodup :=
    f2dLoopR_keys_nodup _ [] m (by simp [keysOf]) hloop
  have hkeys : ∀ j, j ∈ keysOf m ↔
      j ∈ (dir.filter (fun g => pyEndsWith g.name ext)).map
        (fun f => truncAtDot f.name) := by
    intro j
    rw [f2dLoopR_keys_iff _ [] m hloop j]
    simp [keysOf, List.mem_map]
  have hlen : m.length =
      ((dir.filter (fun g => pyEndsWith g.name ext)).map
        (fun f => truncAtDot f.name)).dedup.length := by
    have h1 : m.length = (keysOf m).length := (List.length_map _ _).symm
    have h2 : (keysOf m).toFinset.card = (keysOf m).length :=
      List.toFinset_card_of_nodup hnd
    have h3 : (keysOf m).toFinset =
        ((dir.filter (fun g => pyEndsWith g.name ext)).map
          (fun f => truncAtDot f.name)).toFinset := by
      apply Finset.ext
      intro j
      simp only [List.mem_toFinset]
      exact hkeys j
    rw [h1, ← h2, h3, List.card_toFinset]
  have hle : m.length ≤ (dir.filter (fun g => pyEndsWith g.name ext)).length := by
    rw [hlen]
    calc ((dir.filter (fun g => pyEndsWith g.name ext)).map
            (fun f => truncAtDot f.name)).dedup.length
        ≤ ((dir.filter (fun g => pyEndsWith g.name ext)).map
            (fun f => truncAtDot f.name)).length := (List.dedup_sublist _).length_le
      _ = (dir.filter (fun g => pyEndsWith g.name ext)).length := List.length_map _ _
  refine ⟨by rw [hm]; exact hnd, ?_, by rw [hm]; exact hle, ?_, ?_⟩
  · intro j g hlast
    rw [hm]
    exact (f2dLoopR_lookup_last _ [] m hok hloop j).2 g hlast
  · intro hdup
    rw [hm, hlen]
    have hsub := List.dedup_sublist
      ((dir.filter (fun g => pyEndsWith g.name ext)).map (fun f => truncAtDot f.name))
    rcases lt_or_eq_of_le hsub.length_le with h | h
    · rw [List.length_map] at h
      exact h
    · exfalso
      apply hdup
      rw [← hsub.eq_of_length h]
      exact List.nodup_dedup _
  · intro hne
    rcases hmat : dir.filter (fun g => pyEndsWith g.name ext) with _ | ⟨f, fs⟩
    · exact absurd hmat hne
    · have hmemk : truncAtDot f.name ∈ keysOf m := by
        rw [hkeys, hmat]
        exact List.mem_map_of_mem _ (List.mem_cons_self _ _)
      have hmne : ¬(m.length = 0) := by
        intro h0
        rw [List.length_eq_zero] at h0
        rw [h0] at hmemk
        simp [keysOf] at hmemk
      simp only [files2tables, hm]
      rw [if_neg hmne]

/-- C10 witness: on `dirColl` the table `a` holds the later file's
dataframe (`a.b.csv` overwrote `a.csv`) and only one table results from
two parsed files. -/
theorem c10_collision_last_wins_witness :
    lookupDF (files2dataframes ".csv" dirColl) "a" = readerFor ".csv" fileAB ∧
      (files2dataframes ".csv" dirColl).length <
        (dirColl.filter (fun g => pyEndsWith g.name ".csv")).length := by
  have h := c10_collision_last_wins ".csv" dirColl (Or.inl rfl) (by decide)
  exact ⟨h.2.1 "a" fileAB (by decide), h.2.2.2.1 (by decide)⟩

